import Mathlib

/-!
Verification of the gochef/cache library: a key-value caching facade over a
pluggable driver registry, with one concrete in-memory driver.

The embedding follows the two source files:
  - mem_cache.go : the in-memory driver (MemoryCache with a map store);
  - the facade file : Driver registry, Config, Cache facade and its helpers.

Go runtime values stored behind the empty interface are modelled by the
inductive type Value; the driver store is a total function from string keys
to optional entries; wall-clock time is passed explicitly (the Go code reads
time.Now().Unix() inside Put).  Panics in the registry layer are modelled
with Except String.
-/

/-- Runtime payload stored in the cache.  A Go empty-interface value may be
the nil interface, a string, an int, or a value of any other dynamic type
(collapsed to an opaque tag). -/
inductive Value where
  | vnil : Value
  | vstr : String → Value
  | vint : Int → Value
  | vother : Nat → Value
deriving DecidableEq, Repr

/-- Go type assertion data.(string): the string and true on match, the zero
value "" and false otherwise. -/
def asString : Value → String × Bool
  | Value.vstr t => (t, true)
  | _ => ("", false)

/-- Go type assertion data.(int): the integer and true on match, the zero
value 0 and false otherwise. -/
def asInt : Value → Int × Bool
  | Value.vint n => (n, true)
  | _ => (0, false)

/-- Whether a dynamic value is a string (the success condition of the
data.(string) assertion). -/
def isStr : Value → Bool
  | Value.vstr _ => true
  | _ => false

/-- Whether a dynamic value is an int (the success condition of the
data.(int) assertion). -/
def isInt : Value → Bool
  | Value.vint _ => true
  | _ => false

/-- MemoryCacheItem: one stored entry, a payload plus an absolute expiry time
in epoch seconds, 0 meaning no expiry. -/
structure MemoryCacheItem where
  value : Value
  expiresAt : Int
deriving DecidableEq, Repr

/-- The in-memory driver backing store, the Go map from string key to entry
pointer (nil pointer = absent = none). -/
def Store : Type := String → Option MemoryCacheItem

/-- The store a fresh driver starts with (NewMemoryCache makes an empty map). -/
def emptyStore : Store := fun _ => none

/-- MemoryCache.Get: if the map holds a non-nil entry for the key, return its
value and true; otherwise return nil and false.  The expiry timestamp is not
consulted. -/
def MemoryCache.Get (m : Store) (key : String) : Value × Bool :=
  match m key with
  | some data => (data.value, true)
  | none => (Value.vnil, false)

/-- Two's-complement wrap-around of an integer into the int64 range, i.e.
into -9223372036854775808 = -2^63 up to 9223372036854775807 = 2^63 - 1; Go's
int64 addition wraps on overflow with these semantics. -/
def wrap64 (x : Int) : Int :=
  (x + 9223372036854775808) % 18446744073709551616 - 9223372036854775808

/-- MemoryCache.Put: store the value under the key; a duration below 1 stores
expiresAt = 0 (forever), otherwise expiresAt is the int64 sum now + duration,
which wraps around on overflow.  The Go code reads time.Now().Unix(); here
that instant is the explicit argument now. -/
def MemoryCache.Put (m : Store) (key : String) (data : Value) (duration : Int)
    (now : Int) : Store :=
  fun k =>
    if k = key then
      some ⟨data, if duration < 1 then 0 else wrap64 (now + duration)⟩
    else m k

/-- MemoryCache.Remove: delete the entry for the key. -/
def MemoryCache.Remove (m : Store) (key : String) : Store :=
  fun k => if k = key then none else m k

/-- MemoryCache.Clear: replace the store by a fresh empty map. -/
def MemoryCache.Clear (_ : Store) : Store := fun _ => none

/-- One driver operation on the in-memory store, used to state properties
over arbitrary operation sequences. -/
inductive MemOp where
  | put (key : String) (data : Value) (duration : Int) (now : Int)
  | remove (key : String)
  | clear
deriving DecidableEq, Repr

/-- Apply one operation to the store. -/
def applyOp (m : Store) : MemOp → Store
  | MemOp.put key data duration now => MemoryCache.Put m key data duration now
  | MemOp.remove key => MemoryCache.Remove m key
  | MemOp.clear => MemoryCache.Clear m

/-- An operation avoids key k when it is a put or remove on some other key;
a clear never avoids any key. -/
def AvoidsKey (k : String) : MemOp → Prop
  | MemOp.put key _ _ _ => key ≠ k
  | MemOp.remove key => key ≠ k
  | MemOp.clear => False

instance (k : String) : DecidablePred (AvoidsKey k) := fun op =>
  match op with
  | MemOp.put key _ _ _ => inferInstanceAs (Decidable (key ≠ k))
  | MemOp.remove key => inferInstanceAs (Decidable (key ≠ k))
  | MemOp.clear => inferInstanceAs (Decidable False)

/-- Store paired with a ghost record of the wall-clock instant at which each
present key was last written, used only to state the expiry invariant. -/
structure TStore where
  store : Store
  writtenAt : String → Option Int

/-- Apply one operation to the store while tracking write instants. -/
def applyOpT (t : TStore) : MemOp → TStore
  | MemOp.put key data duration now =>
      ⟨MemoryCache.Put t.store key data duration now,
       fun k => if k = key then some now else t.writtenAt k⟩
  | MemOp.remove key => ⟨MemoryCache.Remove t.store key, t.writtenAt⟩
  | MemOp.clear => ⟨MemoryCache.Clear t.store, t.writtenAt⟩

/-- The expiry invariant: every present entry has expiresAt = 0 or expiresAt
strictly greater than the instant at which it was written. -/
def ExpiryInv (t : TStore) : Prop :=
  ∀ k item, t.store k = some item →
    item.expiresAt = 0 ∨ ∃ w, t.writtenAt k = some w ∧ w < item.expiresAt

/-- A put operation whose expiry computation stays inside the int64 range
(now + duration does not overflow when the duration is positive); remove and
clear qualify trivially. -/
def PutInRange : MemOp → Prop
  | MemOp.put _ _ duration now =>
      1 ≤ duration →
        -9223372036854775808 ≤ now + duration ∧
        now + duration < 9223372036854775808
  | MemOp.remove _ => True
  | MemOp.clear => True

/-- Cache.Get: pure delegation to the driver (here the in-memory driver); the
store is returned unchanged to make the absence of mutation explicit. -/
def Cache.Get (s : Store) (key : String) : (Value × Bool) × Store :=
  (MemoryCache.Get s key, s)

/-- Cache.GetString: Get, then return ("", false) on a miss, otherwise the
result of the data.(string) assertion; the store is never mutated. -/
def Cache.GetString (s : Store) (key : String) : (String × Bool) × Store :=
  let r := Cache.Get s key
  if r.1.2 then (asString r.1.1, r.2) else (("", false), r.2)

/-- Cache.GetInt: Get, then return (0, false) on a miss, otherwise the result
of the data.(int) assertion; the store is never mutated. -/
def Cache.GetInt (s : Store) (key : String) : (Int × Bool) × Store :=
  let r := Cache.Get s key
  if r.1.2 then (asInt r.1.1, r.2) else ((0, false), r.2)

/-- Cache.Pull: driver Get followed unconditionally by driver Remove of the
same key; returns what Get returned. -/
def Cache.Pull (s : Store) (key : String) : (Value × Bool) × Store :=
  (MemoryCache.Get s key, MemoryCache.Remove s key)

/-- Cache.PullString: GetString followed unconditionally by driver Remove. -/
def Cache.PullString (s : Store) (key : String) : (String × Bool) × Store :=
  ((Cache.GetString s key).1, MemoryCache.Remove (Cache.GetString s key).2 key)

/-- Cache.PullInt: GetInt followed unconditionally by driver Remove. -/
def Cache.PullInt (s : Store) (key : String) : (Int × Bool) × Store :=
  ((Cache.GetInt s key).1, MemoryCache.Remove (Cache.GetInt s key).2 key)

/-- Cache.Remember: if Get finds a value return it and leave the store alone;
otherwise invoke the callback, Put its result under the key for the given
duration and return it. -/
def Cache.Remember (s : Store) (key : String) (duration : Int)
    (cb : Unit → Value) (now : Int) : Value × Store :=
  let r := MemoryCache.Get s key
  if r.2 then (r.1, s)
  else
    let d := cb ()
    (d, MemoryCache.Put s key d duration now)

/-- Cache.RememberForever: Remember with duration 0. -/
def Cache.RememberForever (s : Store) (key : String) (cb : Unit → Value)
    (now : Int) : Value × Store :=
  Cache.Remember s key 0 cb now

/-- A reference to a driver instance: Go pointer identity, modelled as an
index into the driver heap. -/
abbrev DriverRef := Nat

/-- Config: the cache instance configuration. -/
structure Config where
  Driver : String
  MaxSize : Int
  Address : String
  Username : String
  Password : String
  Use : Bool
deriving DecidableEq, Repr

/-- Cache: a facade bound to one configuration and one resolved driver. -/
structure Cache where
  config : Config
  driver : DriverRef
deriving DecidableEq, Repr

/-- The process-wide driver registry: a map from driver name to the
registered driver instance. -/
def Registry : Type := String → Option DriverRef

/-- The initial registry: the built-in memory driver, instance 0,
pre-registered under the name "memory". -/
def initialDrivers : Registry := fun n => if n = "memory" then some 0 else none

/-- New: resolve the configured driver name in the registry and bind a facade
to it; panic (modelled as Except.error with the panic message) if the name is
not registered. -/
def New (reg : Registry) (cfg : Config) : Except String Cache :=
  match reg cfg.Driver with
  | some driver => Except.ok ⟨cfg, driver⟩
  | none =>
      Except.error ("cache: cache provider " ++ cfg.Driver ++ " is not registered")

/-- RegisterDriver: panic if the driver is nil, panic if the name is already
taken, otherwise add the driver under the name. -/
def RegisterDriver (reg : Registry) (name : String) (driver : Option DriverRef) :
    Except String Registry :=
  match driver with
  | none => Except.error "cache: driver is nil"
  | some d =>
      match reg name with
      | some _ => Except.error ("cache: driver " ++ name ++ " is already registered")
      | none => Except.ok (fun n => if n = name then some d else reg n)

/-- The driver heap: the store owned by each driver instance; Go aliasing of
one driver pointer from several facades becomes sharing of one heap cell. -/
def Heap : Type := DriverRef → Store

/-- Facade Put through the heap: mutate the store of the facade's resolved
driver instance, leaving every other instance alone. -/
def facadePut (c : Cache) (h : Heap) (key : String) (data : Value)
    (duration : Int) (now : Int) : Heap :=
  fun r => if r = c.driver then MemoryCache.Put (h r) key data duration now else h r

/-- Facade Get through the heap: read the store of the facade's resolved
driver instance. -/
def facadeGet (c : Cache) (h : Heap) (key : String) : Value × Bool :=
  MemoryCache.Get (h c.driver) key

/-! ## Helper lemmas -/

/-- An operation avoiding key k leaves the entry for k untouched. -/
theorem applyOp_eq_of_avoids (m : Store) (k : String) (op : MemOp)
    (h : AvoidsKey k op) : applyOp m op k = m k := by
  cases op with
  | put key data duration now =>
      have hk : k ≠ key := fun e => h (e ▸ rfl)
      simp [applyOp, MemoryCache.Put, hk]
  | remove key =>
      have hk : k ≠ key := fun e => h (e ▸ rfl)
      simp [applyOp, MemoryCache.Remove, hk]
  | clear => exact absurd h id

/-- A sequence of operations each avoiding key k leaves the entry for k
untouched. -/
theorem foldl_eq_of_avoids (ops : List MemOp) (k : String) :
    ∀ m : Store, (∀ op ∈ ops, AvoidsKey k op) → (ops.foldl applyOp m) k = m k := by
  induction ops with
  | nil => intro m _; rfl
  | cons op rest ih =>
      intro m h
      rw [List.foldl_cons, ih _ (fun o ho => h o (List.mem_cons_of_mem _ ho)),
        applyOp_eq_of_avoids m k op (h op (List.mem_cons_self _ _))]

/-- Get on a removed key misses. -/
theorem get_remove_self (s : Store) (k : String) :
    MemoryCache.Get (MemoryCache.Remove s k) k = (Value.vnil, false) := by
  simp [MemoryCache.Get, MemoryCache.Remove]

/-- Wrapping is the identity on integers already inside the int64 range. -/
theorem wrap64_eq_self (x : Int) (h1 : -9223372036854775808 ≤ x)
    (h2 : x < 9223372036854775808) : wrap64 x = x := by
  unfold wrap64
  have hm : (x + 9223372036854775808) % 18446744073709551616
      = x + 9223372036854775808 :=
    Int.emod_eq_of_lt (by omega) (by omega)
  omega

/-! ## Claim theorems -/

/-- C1: after Put(k, v, ttl) with ttl ≤ 0, Get(k) returns (v, true), and it
keeps returning (v, true) after any sequence of driver operations none of
which is a Remove(k), a Clear(), or a Put to k. -/
theorem C1_put_forever_persists (s : Store) (k : String) (v : Value)
    (d now : Int) (ops : List MemOp) (hd : d ≤ 0)
    (havoid : ∀ op ∈ ops, AvoidsKey k op) :
    MemoryCache.Get (ops.foldl applyOp (MemoryCache.Put s k v d now)) k
      = (v, true) ∧
    MemoryCache.Get (MemoryCache.Put s k v d now) k = (v, true) := by
  have hput : MemoryCache.Put s k v d now k = some ⟨v, 0⟩ := by
    have : d < 1 := by omega
    simp [MemoryCache.Put, this]
  constructor
  · rw [MemoryCache.Get, foldl_eq_of_avoids ops k _ havoid, hput]
  · rw [MemoryCache.Get, hput]

/-- C1 witness: a put-forever of 7 under "a" survives a put and a remove on
the key "b". -/
theorem C1_put_forever_persists_witness :
    MemoryCache.Get
      ([MemOp.put "b" (Value.vstr "x") 5 100, MemOp.remove "b"].foldl applyOp
        (MemoryCache.Put emptyStore "a" (Value.vint 7) 0 100)) "a"
      = (Value.vint 7, true) :=
  (C1_put_forever_persists emptyStore "a" (Value.vint 7) 0 100
    [MemOp.put "b" (Value.vstr "x") 5 100, MemOp.remove "b"]
    (by decide) (by decide)).1

/-- C2: Get never consults the stored expiry timestamp: an entry with
positive expiresAt is still returned with found = true at any instant t past
its expiry, and stays retrievable until removed. -/
theorem C2_get_ignores_expiry (s : Store) (k : String)
    (item : MemoryCacheItem) (t : Int) (hs : s k = some item)
    (hpos : 0 < item.expiresAt) (hpast : item.expiresAt < t) :
    MemoryCache.Get s k = (item.value, true) := by
  simp [MemoryCache.Get, hs]

/-- C2 witness: an entry under "a" that expired at instant 10 is still
returned at instant 99. -/
theorem C2_get_ignores_expiry_witness :
    MemoryCache.Get
      (fun k => if k = "a" then some ⟨Value.vint 3, 10⟩ else none) "a"
      = (Value.vint 3, true) :=
  C2_get_ignores_expiry
    (fun k => if k = "a" then some ⟨Value.vint 3, 10⟩ else none)
    "a" ⟨Value.vint 3, 10⟩ 99 (by decide) (by decide) (by decide)

/-- C8: Remove and Clear are observationally idempotent through Get, and
after Clear every Get misses. -/
theorem C8_remove_clear_idempotent (s : Store) (k k2 : String) :
    MemoryCache.Get (MemoryCache.Remove (MemoryCache.Remove s k) k) k2
      = MemoryCache.Get (MemoryCache.Remove s k) k2 ∧
    MemoryCache.Get (MemoryCache.Clear (MemoryCache.Clear s)) k2
      = MemoryCache.Get (MemoryCache.Clear s) k2 ∧
    MemoryCache.Get (MemoryCache.Clear s) k2 = (Value.vnil, false) := by
  refine ⟨?_, rfl, rfl⟩
  by_cases h : k2 = k <;> simp [MemoryCache.Get, MemoryCache.Remove, h]

/-- C10: the found flag reports key presence, not value non-nilness: Get
after storing the nil payload returns (nil, true), while a miss returns the
same nil value with found = false. -/
theorem C10_nil_value_found (s : Store) (k : String) (d now : Int) :
    MemoryCache.Get (MemoryCache.Put s k Value.vnil d now) k
      = (Value.vnil, true) ∧
    MemoryCache.Get emptyStore k = (Value.vnil, false) := by
  constructor
  · simp [MemoryCache.Get, MemoryCache.Put]
  · rfl

/-- C3: Pull, PullString and PullInt always leave the key absent afterwards,
whether or not it was present and whether or not the typed extraction
succeeded, and Pull returns exactly what Get would have returned just before
the removal. -/
theorem C3_pull_removes_key (s : Store) (k : String) :
    (Cache.Pull s k).1 = MemoryCache.Get s k ∧
    MemoryCache.Get (Cache.Pull s k).2 k = (Value.vnil, false) ∧
    MemoryCache.Get (Cache.PullString s k).2 k = (Value.vnil, false) ∧
    MemoryCache.Get (Cache.PullInt s k).2 k = (Value.vnil, false) := by
  refine ⟨rfl, get_remove_self s k, ?_, ?_⟩
  · show MemoryCache.Get (MemoryCache.Remove (Cache.GetString s k).2 k) k = _
    exact get_remove_self _ k
  · show MemoryCache.Get (MemoryCache.Remove (Cache.GetInt s k).2 k) k = _
    exact get_remove_self _ k

/-- C4: Remember returns the cached value and leaves the store alone when Get
finds the key (so the callback is never invoked: the result does not mention
cb at all); on a miss it returns the callback's value, applied once, stores
it via Put with the given duration, and that value is then retrievable via
Get; RememberForever is Remember with duration 0. -/
theorem C4_remember (s : Store) (k : String) (d now : Int)
    (cb : Unit → Value) :
    ((MemoryCache.Get s k).2 = true →
      Cache.Remember s k d cb now = ((MemoryCache.Get s k).1, s)) ∧
    ((MemoryCache.Get s k).2 = false →
      Cache.Remember s k d cb now
        = (cb (), MemoryCache.Put s k (cb ()) d now) ∧
      MemoryCache.Get (Cache.Remember s k d cb now).2 k = (cb (), true)) ∧
    Cache.RememberForever s k cb now = Cache.Remember s k 0 cb now := by
  refine ⟨fun h => ?_, fun h => ?_, rfl⟩
  · simp [Cache.Remember, h]
  · have hms : s k = none := by
      revert h
      unfold MemoryCache.Get
      cases s k <;> simp
    constructor
    · simp [Cache.Remember, MemoryCache.Get, hms]
    · simp [Cache.Remember, MemoryCache.Get, hms, MemoryCache.Put]

/-- C4 witness: on the empty store, Remember under "a" stores and returns the
callback's value 9, and the hit branch applies on the resulting store. -/
theorem C4_remember_witness :
    Cache.Remember emptyStore "a" 5 (fun _ => Value.vint 9) 100
      = (Value.vint 9, MemoryCache.Put emptyStore "a" (Value.vint 9) 5 100) ∧
    MemoryCache.Get
      (Cache.Remember emptyStore "a" 5 (fun _ => Value.vint 9) 100).2 "a"
      = (Value.vint 9, true) :=
  (C4_remember emptyStore "a" 5 100 (fun _ => Value.vint 9)).2.1 (by decide)

/-- C5: on a key holding a value of the wrong dynamic type, GetString and
GetInt return the zero value of the requested type with found = false,
exactly like a missing key, and return the store unchanged. -/
theorem C5_typed_mismatch (s : Store) (k : String) (item : MemoryCacheItem)
    (hs : s k = some item) :
    (isStr item.value = false → Cache.GetString s k = (("", false), s)) ∧
    (isInt item.value = false → Cache.GetInt s k = ((0, false), s)) ∧
    MemoryCache.Get emptyStore k = (Value.vnil, false) := by
  refine ⟨fun h => ?_, fun h => ?_, rfl⟩
  · cases hv : item.value <;>
      simp_all [Cache.GetString, Cache.Get, MemoryCache.Get, hs, asString, isStr]
  · cases hv : item.value <;>
      simp_all [Cache.GetInt, Cache.Get, MemoryCache.Get, hs, asInt, isInt]

/-- C5 witness: GetString on a key holding the int 3 reports a miss with the
zero string and the untouched store. -/
theorem C5_typed_mismatch_witness :
    Cache.GetString
      (fun k => if k = "a" then some ⟨Value.vint 3, 0⟩ else none) "a"
      = (("", false), fun k => if k = "a" then some ⟨Value.vint 3, 0⟩ else none) :=
  (C5_typed_mismatch
    (fun k => if k = "a" then some ⟨Value.vint 3, 0⟩ else none)
    "a" ⟨Value.vint 3, 0⟩ (by decide)).1 (by decide)

/-- C6 counterexample: Put with the positive duration 9223372036854775807
(the largest int64) at the instant 1700000000 wraps the int64 sum
now + duration and stores the negative expiresAt -9223372035154775809, which
is not now + duration, is not 0 and is not greater than the write instant —
refuting the claimed invariant as stated. -/
theorem C6_expiry_invariant_counterexample :
    MemoryCache.Put emptyStore "a" Value.vnil 9223372036854775807 1700000000 "a"
      = some ⟨Value.vnil, -9223372035154775809⟩ ∧
    (0 : Int) < 9223372036854775807 ∧
    (-9223372035154775809 : Int)
      ≠ 1700000000 + 9223372036854775807 ∧
    ¬ ((-9223372035154775809 : Int) = 0 ∨
        (1700000000 : Int) < -9223372035154775809) := by
  refine ⟨?_, by decide, by decide, by decide⟩
  simp only [MemoryCache.Put, if_pos rfl]
  norm_num [wrap64]

/-- C6 amended: Put stores expiresAt = 0 when the duration is non-positive;
when the duration is positive and the int64 sum now + duration does not
overflow, it stores expiresAt = now + duration; and every operation whose
expiry computation stays inside the int64 range preserves the invariant that
each present entry's expiresAt is 0 or strictly greater than the instant at
which the entry was written. -/
theorem C6_expiry_invariant (s : Store) (k : String) (v : Value)
    (d now : Int) (t : TStore) (op : MemOp) :
    (d ≤ 0 → MemoryCache.Put s k v d now k = some ⟨v, 0⟩) ∧
    (0 < d → -9223372036854775808 ≤ now + d →
      now + d < 9223372036854775808 →
      MemoryCache.Put s k v d now k = some ⟨v, now + d⟩) ∧
    (ExpiryInv t → PutInRange op → ExpiryInv (applyOpT t op)) := by
  refine ⟨fun h => ?_, fun h hlo hhi => ?_, fun hinv hro => ?_⟩
  · have hd : d < 1 := by omega
    simp [MemoryCache.Put, hd]
  · have hd : ¬ d < 1 := by omega
    simp [MemoryCache.Put, hd, wrap64_eq_self _ hlo hhi]
  · cases op with
    | put key data duration now2 =>
        intro k2 item hk2
        simp only [PutInRange] at hro
        simp only [applyOpT, MemoryCache.Put] at hk2 ⊢
        by_cases hkey : k2 = key
        · rw [if_pos hkey] at hk2
          cases hk2
          by_cases hdur : duration < 1
          · left; simp [hdur]
          · right
            have hd1 : 1 ≤ duration := by omega
            obtain ⟨hlo, hhi⟩ := hro hd1
            refine ⟨now2, by rw [if_pos hkey], ?_⟩
            simp only [if_neg hdur]
            rw [wrap64_eq_self _ hlo hhi]
            omega
        · rw [if_neg hkey] at hk2
          rcases hinv k2 item hk2 with h0 | ⟨w, hw, hlt⟩
          · exact Or.inl h0
          · exact Or.inr ⟨w, by rw [if_neg hkey]; exact hw, hlt⟩
    | remove key =>
        intro k2 item hk2
        simp only [applyOpT, MemoryCache.Remove] at hk2 ⊢
        by_cases hkey : k2 = key
        · rw [if_pos hkey] at hk2; cases hk2
        · rw [if_neg hkey] at hk2; exact hinv k2 item hk2
    | clear =>
        intro k2 item hk2
        exact absurd hk2 (by simp [applyOpT, MemoryCache.Clear])

/-- C6 witness: concrete instances of all three conjuncts at duration 0,
duration 5 and an in-range put applied to the empty tracked store. -/
theorem C6_expiry_invariant_witness :
    MemoryCache.Put emptyStore "a" Value.vnil 0 100 "a" = some ⟨Value.vnil, 0⟩ ∧
    MemoryCache.Put emptyStore "a" Value.vnil 5 100 "a"
      = some ⟨Value.vnil, 105⟩ ∧
    ExpiryInv (applyOpT ⟨emptyStore, fun _ => none⟩
      (MemOp.put "a" (Value.vint 1) 5 100)) :=
  ⟨(C6_expiry_invariant emptyStore "a" Value.vnil 0 100
      ⟨emptyStore, fun _ => none⟩ MemOp.clear).1 (by decide),
   (C6_expiry_invariant emptyStore "a" Value.vnil 5 100
      ⟨emptyStore, fun _ => none⟩ MemOp.clear).2.1 (by decide) (by decide)
     (by decide),
   (C6_expiry_invariant emptyStore "a" Value.vnil 0 100
      ⟨emptyStore, fun _ => none⟩ (MemOp.put "a" (Value.vint 1) 5 100)).2.2
     (fun k item h => absurd h (Option.noConfusion))
     (fun _ => ⟨by decide, by decide⟩)⟩

/-- C7: all three configuration errors fail fatally with a message naming the
offender: New on an unregistered name, RegisterDriver on a taken name, and
RegisterDriver on a nil driver; registering two fresh distinct names both
succeed; a successful New binds the facade to the resolved driver. -/
theorem C7_fatal_config_errors (reg : Registry) (cfg : Config)
    (name n1 n2 : String) (dr d1 d2 : DriverRef) :
    (reg cfg.Driver = none →
      New reg cfg = Except.error
        ("cache: cache provider " ++ cfg.Driver ++ " is not registered")) ∧
    RegisterDriver reg name none = Except.error "cache: driver is nil" ∧
    ((reg name).isSome →
      RegisterDriver reg name (some dr)
        = Except.error ("cache: driver " ++ name ++ " is already registered")) ∧
    (reg n1 = none → reg n2 = none → n1 ≠ n2 →
      ∃ reg1, RegisterDriver reg n1 (some d1) = Except.ok reg1 ∧
        ∃ reg2, RegisterDriver reg1 n2 (some d2) = Except.ok reg2) ∧
    (reg cfg.Driver = some dr → New reg cfg = Except.ok ⟨cfg, dr⟩) := by
  refine ⟨fun h => ?_, rfl, fun h => ?_, fun h1 h2 hne => ?_, fun h => ?_⟩
  · simp [New, h]
  · rcases Option.isSome_iff_exists.mp h with ⟨d0, hd0⟩
    simp [RegisterDriver, hd0]
  · refine ⟨fun n => if n = n1 then some d1 else reg n, ?_, ?_⟩
    · simp [RegisterDriver, h1]
    · refine ⟨fun n => if n = n2 then some d2
        else if n = n1 then some d1 else reg n, ?_⟩
      simp only [RegisterDriver, if_neg hne.symm, h2]
  · simp [New, h]

/-- C7 witness: on the initial registry, New with the name "redis" fails with
the message naming "redis", re-registering "memory" fails with the message
naming "memory", a nil registration fails, "a" then "b" both register, and
New with "memory" binds to driver instance 0. -/
theorem C7_fatal_config_errors_witness :
    New initialDrivers ⟨"redis", 0, "", "", "", false⟩
      = Except.error "cache: cache provider redis is not registered" ∧
    RegisterDriver initialDrivers "memory" none
      = Except.error "cache: driver is nil" ∧
    RegisterDriver initialDrivers "memory" (some 1)
      = Except.error "cache: driver memory is already registered" ∧
    (∃ reg1, RegisterDriver initialDrivers "a" (some 1) = Except.ok reg1 ∧
      ∃ reg2, RegisterDriver reg1 "b" (some 2) = Except.ok reg2) ∧
    New initialDrivers ⟨"memory", 0, "", "", "", false⟩
      = Except.ok ⟨⟨"memory", 0, "", "", "", false⟩, 0⟩ := by
  have h := C7_fatal_config_errors initialDrivers
    ⟨"redis", 0, "", "", "", false⟩ "memory" "a" "b" 1 1 2
  have h2 := C7_fatal_config_errors initialDrivers
    ⟨"memory", 0, "", "", "", false⟩ "memory" "a" "b" 0 1 2
  exact ⟨h.1 (by decide), h.2.1, h.2.2.1 (by decide),
    h.2.2.2.1 (by decide) (by decide) (by decide), h2.2.2.2.2 (by decide)⟩

/-- C9: two facades constructed for the same registered driver name resolve
to the same driver instance, hence share one store: a Put through the first
facade is visible to a Get through the second. -/
theorem C9_same_name_shared_store (reg : Registry) (cfg1 cfg2 : Config)
    (c1 c2 : Cache) (h : Heap) (k : String) (v : Value) (d now : Int)
    (h1 : New reg cfg1 = Except.ok c1) (h2 : New reg cfg2 = Except.ok c2)
    (hname : cfg1.Driver = cfg2.Driver) :
    c1.driver = c2.driver ∧
    facadeGet c2 (facadePut c1 h k v d now) k = (v, true) := by
  have hdr : c1.driver = c2.driver := by
    unfold New at h1 h2
    rw [hname] at h1
    cases hr : reg cfg2.Driver with
    | none => rw [hr] at h1; cases h1
    | some d0 =>
        rw [hr] at h1 h2
        cases h1; cases h2; rfl
  refine ⟨hdr, ?_⟩
  unfold facadeGet facadePut
  rw [← hdr, if_pos rfl]
  simp [MemoryCache.Get, MemoryCache.Put]

/-- C9 witness: two facades both built over the initial registry for the name
"memory", with different remaining configuration, share instance 0: a put of
1 under "a" through the first is read back through the second. -/
theorem C9_same_name_shared_store_witness :
    facadeGet ⟨⟨"memory", 9, "addr", "u", "p", true⟩, 0⟩
      (facadePut ⟨⟨"memory", 0, "", "", "", false⟩, 0⟩
        (fun _ => emptyStore) "a" (Value.vint 1) 0 100) "a"
      = (Value.vint 1, true) :=
  (C9_same_name_shared_store initialDrivers
    ⟨"memory", 0, "", "", "", false⟩ ⟨"memory", 9, "addr", "u", "p", true⟩
    ⟨⟨"memory", 0, "", "", "", false⟩, 0⟩
    ⟨⟨"memory", 9, "addr", "u", "p", true⟩, 0⟩
    (fun _ => emptyStore) "a" (Value.vint 1) 0 100
    rfl rfl rfl).2

/-- C7 counterexample: registering a nil driver under the name "mydriver"
fails with the fixed message "cache: driver is nil", which is the same for
every name and does not contain the offending name, so the nil-driver error
does not identify the offending name as the claim states. -/
theorem C7_fatal_config_errors_counterexample :
    RegisterDriver initialDrivers "mydriver" none
      = Except.error "cache: driver is nil" ∧
    RegisterDriver initialDrivers "alpha" none
      = RegisterDriver initialDrivers "mydriver" none ∧
    ¬ ("mydriver".data <:+: "cache: driver is nil".data) :=
  ⟨rfl, rfl, by decide⟩
